import Mathlib

/-
  Verification of the Virtual-Energy-Trading frontend against its
  natural-language specification.

  Shallow embedding conventions:
  * JS numbers that only ever hold finite decimal values are modeled as ℚ.
  * JS NaN (arising from the unguarded 0/0 in the bucket average) is modeled
    explicitly: the average is an Option ℚ, with none standing for NaN, and
    the per-order pnl value is a three-way sum (null / NaN / numeric value)
    mirroring the three results the JS code can store in the pnl field.
  * UTC instants are whole minutes since the Unix epoch (ℤ); a formatted
    civil date string YYYY-MM-DD is modeled by its epoch-day number and a
    formatted HH:mm string by its minute-of-day, both bijective encodings.
  * Reads of the ambient wall clock or of the runtime timezone are passed
    as explicit parameters (nowUtcMin, envOffsetMin, o0).
-/

/-! ## JS rounding helpers (Math.round(x * 100) / 100) -/

/-- JS Math.round: round half toward positive infinity. -/
def jsRound (x : ℚ) : ℤ := ⌊x + 1/2⌋

/-- Round to cents, as the dashboard code does with Math.round(pnl * 100) / 100. -/
def round2 (x : ℚ) : ℚ := (jsRound (x * 100) : ℚ) / 100

/-! ## Dashboard P&L model (EnhancedPJMDashboard.tsx, calculatePnL) -/

inductive Side where
  | buy
  | sell
deriving DecidableEq, Repr

inductive OrderStatus where
  | pending
  | filled
  | rejected
  | cancelled
deriving DecidableEq, Repr

/-- The fields of a dashboard order that calculatePnL reads. -/
structure DashOrder where
  status : OrderStatus
  side : Side
  filled_price : Option ℚ
  quantity_mwh : ℚ
deriving DecidableEq, Repr

/-- The value stored in the pnl field of a returned order: JS null for
orders that are not filled, JS NaN when the bucket average is 0/0, or a
numeric value. -/
inductive PnlValue where
  | nullPnl
  | nanPnl
  | val (x : ℚ)
deriving DecidableEq, Repr

/-- rtPrices.reduce((sum, price) => sum + price, 0) / rtPrices.length.
For an empty list JS produces 0/0 = NaN, modeled as none. -/
def rtAverageJs (rtPrices : List ℚ) : Option ℚ :=
  if rtPrices.length = 0 then none
  else some (rtPrices.sum / (rtPrices.length : ℚ))

/-- The body of the map inside calculatePnL.  fillPrice is
order.filled_price || daPrice, so a missing or zero filled_price falls back
to daPrice (JS truthiness).  A NaN average propagates through the
arithmetic and Math.round into the pnl field. -/
def orderPnL (daPrice : ℚ) (rtAverage : Option ℚ) (order : DashOrder) :
    DashOrder × PnlValue :=
  if order.status ≠ OrderStatus.filled then (order, PnlValue.nullPnl)
  else
    match rtAverage with
    | none => (order, PnlValue.nanPnl)
    | some avg =>
      let fillPrice : ℚ :=
        match order.filled_price with
        | some p => if p = 0 then daPrice else p
        | none => daPrice
      let pnl : ℚ :=
        if order.side = Side.buy then (avg - fillPrice) * order.quantity_mwh
        else (fillPrice - avg) * order.quantity_mwh
      (order, PnlValue.val (round2 pnl))

/-- calculatePnL from EnhancedPJMDashboard.tsx: the average is computed once
over the whole rtPrices array, then every order is mapped to a copy carrying
its pnl value. -/
def calculatePnL (orders : List DashOrder) (daPrice : ℚ) (rtPrices : List ℚ) :
    List (DashOrder × PnlValue) :=
  orders.map (orderPnL daPrice (rtAverageJs rtPrices))

/-! ## Deterministic matching engine (spec §4.3) -/

inductive MatchReason where
  | LimitNotMet
deriving DecidableEq, Repr

structure MatchDecision where
  status : OrderStatus
  filled_price : Option ℚ
  reason : Option MatchReason
deriving DecidableEq, Repr

/-- Modelled from the spec: the Deterministic Matching Engine of spec §4.3
is documented (API docs, spec) but its implementation is not in this source
tree, which holds only the frontend.  Per the spec, a limit buy fills at
reference_price iff reference_price <= limit_price, a limit sell fills at
reference_price iff reference_price >= limit_price, and otherwise the order
is rejected with reason LimitNotMet. -/
def matchLimitOrder (referencePrice limit_price : ℚ) (side : Side) : MatchDecision :=
  match side with
  | Side.buy =>
    if referencePrice ≤ limit_price then ⟨OrderStatus.filled, some referencePrice, none⟩
    else ⟨OrderStatus.rejected, none, some MatchReason.LimitNotMet⟩
  | Side.sell =>
    if referencePrice ≥ limit_price then ⟨OrderStatus.filled, some referencePrice, none⟩
    else ⟨OrderStatus.rejected, none, some MatchReason.LimitNotMet⟩

/-! ## Civil calendar and the America/New_York offset

The timezone utilities delegate to dayjs with the IANA zone database.  We
model the zone with the post-2007 US rule that database carries for
America/New_York: UTC-5 (EST), switching to UTC-4 (EDT) from 02:00 local on
the second Sunday of March until 02:00 local on the first Sunday of
November.  Instants are minutes since the Unix epoch; days are days since
1970-01-01.  The civil conversions follow the standard Gregorian-calendar
day-count algorithm. -/

/-- Gregorian (year, month, day) of an epoch-day number. -/
def civilFromDays (z : ℤ) : ℤ × ℤ × ℤ :=
  let zs := z + 719468
  let era := zs / 146097
  let doe := zs - era * 146097
  let yoe := (doe - doe / 1460 + doe / 36524 - doe / 146096) / 365
  let y0 := yoe + era * 400
  let doy := doe - (365 * yoe + yoe / 4 - yoe / 100)
  let mp := (5 * doy + 2) / 153
  let d := doy - (153 * mp + 2) / 5 + 1
  let m := if mp < 10 then mp + 3 else mp - 9
  (if m ≤ 2 then y0 + 1 else y0, m, d)

/-- Epoch-day number of a Gregorian (year, month, day). -/
def daysFromCivil (y m d : ℤ) : ℤ :=
  let y1 := if m ≤ 2 then y - 1 else y
  let era := y1 / 400
  let yoe := y1 - era * 400
  let doy := (153 * (if m > 2 then m - 3 else m + 9) + 2) / 5 + d - 1
  let doe := yoe * 365 + yoe / 4 - yoe / 100 + doy
  era * 146097 + doe - 719468

/-- Weekday of an epoch-day number, 0 = Sunday (1970-01-01 was a Thursday). -/
def dayOfWeek (z : ℤ) : ℤ := (z + 4) % 7

/-- Epoch-day of the second Sunday of March of a year: the first Sunday on
or after March 8. -/
def secondSundayOfMarch (y : ℤ) : ℤ :=
  let z := daysFromCivil y 3 8
  z + (7 - dayOfWeek z) % 7

/-- Epoch-day of the first Sunday of November of a year. -/
def firstSundayOfNovember (y : ℤ) : ℤ :=
  let z := daysFromCivil y 11 1
  z + (7 - dayOfWeek z) % 7

/-- UTC minute at which DST starts in year y (02:00 EST = 07:00 UTC). -/
def dstStartUtcMin (y : ℤ) : ℤ := secondSundayOfMarch y * 1440 + 420

/-- UTC minute at which DST ends in year y (02:00 EDT = 06:00 UTC). -/
def dstEndUtcMin (y : ℤ) : ℤ := firstSundayOfNovember y * 1440 + 360

/-- Calendar year of a UTC instant in minutes. -/
def utcYear (u : ℤ) : ℤ := (civilFromDays (u / 1440)).1

/-- Offset of America/New_York from UTC, in minutes, at a UTC instant:
-240 during DST (EDT), -300 otherwise (EST).  The DST boundaries are
mid-year, so the UTC calendar year of the instant is the relevant one. -/
def nyOffsetMin (u : ℤ) : ℤ :=
  if dstStartUtcMin (utcYear u) ≤ u ∧ u < dstEndUtcMin (utcYear u) then -240 else -300

/-! ## Timezone utilities (frontend/src/utils/timezone.ts)

A formatted YYYY-MM-DD date string is modeled by its epoch-day number and a
HH:mm time string by its minute-of-day; both renderings are bijective, so
the string boundary is faithfully represented by the pair. -/

/-- utcToEdt: format a UTC instant in America/New_York, returning the
(epoch-day, minute-of-day) encoding of its date and time strings. -/
def utcToEdt (u : ℤ) : ℤ × ℤ :=
  let localMin := u + nyOffsetMin u
  (localMin / 1440, localMin % 1440)

/-- fixOffset from the dayjs timezone plugin, in minutes: given the wall
time read as a UTC minute count and an initial offset guess o0 (the zone
offset at the moment of the call), locate the UTC instant.  Returns the
instant and the offset finally used. -/
def tzFixOffset (localTs o0 : ℤ) : ℤ × ℤ :=
  let utcGuess := localTs - o0
  let o2 := nyOffsetMin utcGuess
  if o2 = o0 then (utcGuess, o0)
  else
    let utcGuess2 := utcGuess - (o2 - o0)
    let o3 := nyOffsetMin utcGuess2
    if o3 = o2 then (utcGuess2, o2)
    else (localTs - min o2 o3, max o2 o3)

/-- edtToUtc: parse an Eastern date (epoch-day d) and time (minute-of-day t)
into a UTC instant via dayjs.tz, which applies fixOffset starting from the
zone offset o0 in effect at the moment of the call. -/
def edtToUtc (d t o0 : ℤ) : ℤ :=
  (tzFixOffset (d * 1440 + t) o0).1

/-- formatRTTimeSlot: both hourStartUtc and timeSlotUtc are the UTC
conversion of the given 5-minute slot start; intervalEndUtc is 5 minutes
later. -/
def formatRTTimeSlot (d t o0 : ℤ) : ℤ × ℤ × ℤ :=
  let edtStart := edtToUtc d t o0
  (edtStart, edtStart, edtStart + 5)

/-- The hour_start and time_slot fields an RT order submission carries. -/
structure RTOrderData where
  hour_start : ℤ
  time_slot : ℤ
deriving DecidableEq, Repr

/-- The real-time branch of handleCreateOrder: hour_start := rtSlot.hourStartUtc
and time_slot := rtSlot.timeSlotUtc from formatRTTimeSlot. -/
def handleCreateOrderRT (todayD startT o0 : ℤ) : RTOrderData :=
  let rtSlot := formatRTTimeSlot todayD startT o0
  ⟨rtSlot.1, rtSlot.2.1⟩

/-! ## Market-state checks (marketUtils.isDayAheadMarketOpen, isDATradingOpen)

Both functions read the runtime wall clock through dayjs() with no zone
argument, i.e. the civil clock of the environment the code runs in.  We
model that clock as the UTC instant plus the environment zone offset in
minutes, both explicit parameters. -/

/-- Hour-of-day (0..23) of a civil minute count. -/
def hourOfDay (localMin : ℤ) : ℤ := (localMin % 1440) / 60

/-- marketUtils.isDayAheadMarketOpen: dayjs().hour() < 11 on the runtime
local clock. -/
def isDayAheadMarketOpen (nowUtcMin envOffsetMin : ℤ) : Bool :=
  decide (hourOfDay (nowUtcMin + envOffsetMin) < 11)

/-- marketUtils.isRealTimeMarketOpen: always true. -/
def isRealTimeMarketOpen : Bool := true

/-- isDATradingOpen (OrderManagement in part_000): now.isBefore(
now.startOf(day).add(11, hour)) on the runtime local clock. -/
def isDATradingOpen (nowUtcMin envOffsetMin : ℤ) : Bool :=
  let nowLocal := nowUtcMin + envOffsetMin
  let cutoff := nowLocal - nowLocal % 1440 + 11 * 60
  decide (nowLocal < cutoff)

/-- The check the claim describes: before the 11:00 cutoff computed in the
market civil zone America/New_York, DST-aware. -/
def daOpenPerClaim (nowUtcMin : ℤ) : Prop :=
  hourOfDay (nowUtcMin + nyOffsetMin nowUtcMin) < 11

/-! ## Slot order caps (marketUtils.validateOrderLimits, part_003) -/

inductive Market where
  | dayAhead
  | realTime
deriving DecidableEq, Repr

/-- The fields of an existing order that validateOrderLimits reads; slots
are modeled as UTC minute counts, time_slot is absent on DA orders. -/
structure ApiOrder where
  market : Market
  hour_start : ℤ
  time_slot : Option ℤ
deriving DecidableEq, Repr

structure OrderLimitResult where
  isValid : Bool
  currentCount : ℤ
  maxCount : ℤ
  remaining : ℤ
deriving DecidableEq, Repr

/-- marketUtils.validateOrderLimits: cap 10 per DA hour, 50 per RT 5-minute
slot; counts the existing orders of the same market whose slot key equals
timeSlot. -/
def validateOrderLimits (market : Market) (timeSlot : ℤ) (existingOrders : List ApiOrder) :
    OrderLimitResult :=
  let maxOrders : ℤ := if market = Market.dayAhead then 10 else 50
  let slotOrders := existingOrders.filter fun order =>
    if market = Market.dayAhead then
      decide (order.market = Market.dayAhead ∧ order.hour_start = timeSlot)
    else
      decide (order.market = Market.realTime ∧ order.time_slot = some timeSlot)
  { isValid := decide ((slotOrders.length : ℤ) < maxOrders)
    currentCount := (slotOrders.length : ℤ)
    maxCount := maxOrders
    remaining := maxOrders - (slotOrders.length : ℤ) }

/-- The slot-cap gate in handleSubmitOrder (OrderManagement.tsx line 302):
the submission is blocked iff currentSlotOrders >= maxOrdersPerSlot. -/
def slotCapBlocks (currentSlotOrders maxOrdersPerSlot : ℤ) : Bool :=
  decide (currentSlotOrders ≥ maxOrdersPerSlot)

/-- getMarketRules(market).maxOrdersPerSlot from OrderManagement.tsx. -/
def maxOrdersPerSlot (market : Market) : ℤ :=
  if market = Market.dayAhead then 10 else 50

/-! ## Order deletion (OrderManagement.tsx, handleDeleteOrder) -/

/-- The fields of a local order that handleDeleteOrder can observe; the
string id is modeled as an integer. -/
structure MgmtOrder where
  id : ℤ
  status : OrderStatus
deriving DecidableEq, Repr

/-- handleDeleteOrder (after the user confirms the modal):
setOrders(prev => prev.filter(order => order.id !== orderId)). -/
def handleDeleteOrder (orderId : ℤ) (orders : List MgmtOrder) : List MgmtOrder :=
  orders.filter fun order => decide (order.id ≠ orderId)

/-! ## Helper lemmas -/

theorem sum_map_sub_const (l : List ℚ) (c : ℚ) :
    (l.map fun p => p - c).sum = l.sum - l.length * c := by
  induction l with
  | nil => simp
  | cons p l ih => simp [ih]; ring

theorem sum_map_const_sub (l : List ℚ) (c : ℚ) :
    (l.map fun p => c - p).sum = l.length * c - l.sum := by
  induction l with
  | nil => simp
  | cons p l ih => simp [ih]; ring

theorem rtAverageJs_of_ne_nil (ps : List ℚ) (h : ps ≠ []) :
    rtAverageJs ps = some (ps.sum / (ps.length : ℚ)) := by
  unfold rtAverageJs
  rw [if_neg (by simpa [List.length_eq_zero] using h)]

theorem orderPnL_filled_eq (da avg : ℚ) (o : DashOrder) (P : ℚ)
    (hst : o.status = OrderStatus.filled) (hfp : o.filled_price = some P) (hP : P ≠ 0) :
    orderPnL da (some avg) o =
      (o, PnlValue.val (round2 (if o.side = Side.buy
        then (avg - P) * o.quantity_mwh
        else (P - avg) * o.quantity_mwh))) := by
  unfold orderPnL
  rw [if_neg (by simp [hst])]
  simp only [hfp]
  rw [if_neg hP]

theorem nyOffset_mem (u : ℤ) : nyOffsetMin u = -240 ∨ nyOffsetMin u = -300 := by
  unfold nyOffsetMin
  split_ifs <;> simp

/-! ## C1: the PJM bucket formula for a complete hour -/

/-- C1 counterexample: a DA buy filled at 48.00 for 2.5 MWh with all 12
buckets priced 52.30 gets pnl 10.75 (= 43/4) from calculatePnL, whereas the
claimed buy formula, the sum over the 12 buckets of
(P_DA - P_RT,t) * (q / 12), evaluates to -10.75 at the same input.  The
signs of the claimed buy and sell formulas are swapped relative to the
code. -/
theorem pnl_sign_counterexample :
    calculatePnL [⟨OrderStatus.filled, Side.buy, some 48, 5/2⟩] 45
        (List.replicate 12 ((523:ℚ)/10))
      = [(⟨OrderStatus.filled, Side.buy, some 48, 5/2⟩, PnlValue.val (43/4))]
    ∧ ((List.replicate 12 ((523:ℚ)/10)).map fun p => (48 - p) * ((5/2) / 12)).sum
        = -(43/4)
    ∧ ((43:ℚ)/4) ≠ -(43/4) := by
  refine ⟨?_, ?_, by norm_num⟩
  · norm_num [calculatePnL, orderPnL, rtAverageJs, round2, jsRound, List.replicate]
  · norm_num [List.replicate]

/-- C1 (amended): for a filled order with fill price P over an hour with all
12 bucket prices available, calculatePnL yields, rounded to cents, the sum
over the buckets of (P_RT,t - P) * (q / 12) for a buy and of
(P - P_RT,t) * (q / 12) for a sell — the buy/sell signs are the reverse of
the claimed formula, and the value is rounded to the nearest cent. -/
theorem pnl_full_hour_bucket_formula
    (orders : List DashOrder) (da : ℚ) (ps : List ℚ) (o : DashOrder) (P : ℚ)
    (ho : o ∈ orders) (hst : o.status = OrderStatus.filled)
    (hfp : o.filled_price = some P) (hP : P ≠ 0) (h12 : ps.length = 12) :
    (o, PnlValue.val (round2 (if o.side = Side.buy
        then ((ps.map fun p => p - P).sum) * (o.quantity_mwh / 12)
        else ((ps.map fun p => P - p).sum) * (o.quantity_mwh / 12))))
      ∈ calculatePnL orders da ps := by
  have hne : ps ≠ [] := by
    intro h
    rw [h] at h12
    simp at h12
  have havg : rtAverageJs ps = some (ps.sum / (ps.length : ℚ)) :=
    rtAverageJs_of_ne_nil ps hne
  have heq : orderPnL da (rtAverageJs ps) o =
      (o, PnlValue.val (round2 (if o.side = Side.buy
        then ((ps.map fun p => p - P).sum) * (o.quantity_mwh / 12)
        else ((ps.map fun p => P - p).sum) * (o.quantity_mwh / 12)))) := by
    rw [havg, orderPnL_filled_eq da _ o P hst hfp hP]
    cases hside : o.side
    · rw [if_pos rfl, if_pos rfl, sum_map_sub_const, h12]
      norm_num
      ring_nf
    · rw [if_neg (by simp), if_neg (by simp), sum_map_const_sub, h12]
      norm_num
      ring_nf
  have hmem : orderPnL da (rtAverageJs ps) o ∈ calculatePnL orders da ps :=
    List.mem_map_of_mem _ ho
  rwa [heq] at hmem

/-- C1 witness: the amended formula evaluated at a concrete filled buy
order over a complete hour. -/
theorem pnl_full_hour_bucket_formula_witness :
    (⟨OrderStatus.filled, Side.buy, some 48, 5/2⟩ : DashOrder)
        ∈ [(⟨OrderStatus.filled, Side.buy, some 48, 5/2⟩ : DashOrder)]
    ∧ (⟨OrderStatus.filled, Side.buy, some 48, 5/2⟩ : DashOrder).status = OrderStatus.filled
    ∧ (⟨OrderStatus.filled, Side.buy, some 48, 5/2⟩ : DashOrder).filled_price = some 48
    ∧ (48:ℚ) ≠ 0
    ∧ (List.replicate 12 ((523:ℚ)/10)).length = 12
    ∧ ((⟨OrderStatus.filled, Side.buy, some 48, 5/2⟩ : DashOrder),
        PnlValue.val (round2 (if (⟨OrderStatus.filled, Side.buy, some 48, 5/2⟩ : DashOrder).side = Side.buy
          then (((List.replicate 12 ((523:ℚ)/10)).map fun p => p - 48).sum)
            * ((⟨OrderStatus.filled, Side.buy, some 48, 5/2⟩ : DashOrder).quantity_mwh / 12)
          else (((List.replicate 12 ((523:ℚ)/10)).map fun p => (48:ℚ) - p).sum)
            * ((⟨OrderStatus.filled, Side.buy, some 48, 5/2⟩ : DashOrder).quantity_mwh / 12))))
      ∈ calculatePnL [⟨OrderStatus.filled, Side.buy, some 48, 5/2⟩] 45
          (List.replicate 12 ((523:ℚ)/10)) :=
  ⟨by simp, rfl, rfl, by norm_num, by simp,
   pnl_full_hour_bucket_formula _ 45 _ _ 48 (by simp) rfl rfl (by norm_num) (by simp)⟩

/-! ## C2: the documented DA/RT settlement scenario -/

/-- C2: a DA buy filled at 48.00 for 2.5 MWh over an hour whose 12 bucket
prices average 52.30 gets hour pnl exactly 10.75 (= 43/4). -/
theorem pnl_settlement_scenario (da : ℚ) (ps : List ℚ)
    (h12 : ps.length = 12) (havg : ps.sum / (ps.length : ℚ) = 523/10) :
    calculatePnL [⟨OrderStatus.filled, Side.buy, some 48, 5/2⟩] da ps
      = [(⟨OrderStatus.filled, Side.buy, some 48, 5/2⟩, PnlValue.val (43/4))] := by
  have hne : ps ≠ [] := by
    intro h
    rw [h] at h12
    simp at h12
  have hstep : orderPnL da (rtAverageJs ps) ⟨OrderStatus.filled, Side.buy, some 48, 5/2⟩
      = (⟨OrderStatus.filled, Side.buy, some 48, 5/2⟩, PnlValue.val (43/4)) := by
    rw [rtAverageJs_of_ne_nil ps hne,
      orderPnL_filled_eq da _ _ 48 rfl rfl (by norm_num)]
    norm_num [havg, round2, jsRound]
  unfold calculatePnL
  rw [List.map_cons, List.map_nil, hstep]

/-- C2 witness: twelve buckets all at 52.30. -/
theorem pnl_settlement_scenario_witness :
    (List.replicate 12 ((523:ℚ)/10)).length = 12
    ∧ (List.replicate 12 ((523:ℚ)/10)).sum / ((List.replicate 12 ((523:ℚ)/10)).length : ℚ)
        = 523/10
    ∧ calculatePnL [⟨OrderStatus.filled, Side.buy, some 48, 5/2⟩] 45
          (List.replicate 12 ((523:ℚ)/10))
        = [(⟨OrderStatus.filled, Side.buy, some 48, 5/2⟩, PnlValue.val (43/4))] :=
  ⟨by simp, by norm_num [List.replicate],
   pnl_settlement_scenario 45 _ (by simp) (by norm_num [List.replicate])⟩

/-! ## C3: incomplete hours -/

/-- C3 counterexample: a filled buy at 48.00 for 12 MWh with only 8 buckets
available, all at 49.00, gets pnl 12 from calculatePnL (the average over the
8 buckets times the full quantity), while the claimed per-bucket weight
q / 12 would give 8 for the bucket difference taken RT-minus-DA and -8 for
DA-minus-RT: the missing buckets do change the per-bucket weight. -/
theorem pnl_partial_hour_counterexample :
    calculatePnL [⟨OrderStatus.filled, Side.buy, some 48, 12⟩] 45 (List.replicate 8 (49:ℚ))
      = [(⟨OrderStatus.filled, Side.buy, some 48, 12⟩, PnlValue.val 12)]
    ∧ ((List.replicate 8 ((49:ℚ))).map fun p => (p - 48) * ((12:ℚ) / 12)).sum = 8
    ∧ ((List.replicate 8 ((49:ℚ))).map fun p => (48 - p) * ((12:ℚ) / 12)).sum = -8
    ∧ (12:ℚ) ≠ 8 ∧ (12:ℚ) ≠ -8 := by
  refine ⟨?_, ?_, ?_, by norm_num, by norm_num⟩
  · norm_num [calculatePnL, orderPnL, rtAverageJs, round2, jsRound, List.replicate]
  · norm_num [List.replicate]
  · norm_num [List.replicate]

/-- C3 (amended): for a filled order with fill price P over an hour with
only n of the 12 buckets available (0 < n < 12), calculatePnL yields,
rounded to cents, the sum over the available buckets of the price
difference times q / n — missing buckets are not imputed a zero price, but
their absence does change the per-bucket weight from q / 12 to q / n. -/
theorem pnl_partial_hour_bucket_formula
    (orders : List DashOrder) (da : ℚ) (ps : List ℚ) (o : DashOrder) (P : ℚ)
    (ho : o ∈ orders) (hst : o.status = OrderStatus.filled)
    (hfp : o.filled_price = some P) (hP : P ≠ 0)
    (hn0 : 0 < ps.length) (hn12 : ps.length < 12) :
    (o, PnlValue.val (round2 (if o.side = Side.buy
        then ((ps.map fun p => p - P).sum) * (o.quantity_mwh / (ps.length : ℚ))
        else ((ps.map fun p => P - p).sum) * (o.quantity_mwh / (ps.length : ℚ)))))
      ∈ calculatePnL orders da ps := by
  have hne : ps ≠ [] := by
    intro h
    rw [h] at hn0
    simp at hn0
  have hlen : ((ps.length : ℚ)) ≠ 0 := Nat.cast_ne_zero.mpr hn0.ne'
  have heq : orderPnL da (rtAverageJs ps) o =
      (o, PnlValue.val (round2 (if o.side = Side.buy
        then ((ps.map fun p => p - P).sum) * (o.quantity_mwh / (ps.length : ℚ))
        else ((ps.map fun p => P - p).sum) * (o.quantity_mwh / (ps.length : ℚ))))) := by
    rw [rtAverageJs_of_ne_nil ps hne, orderPnL_filled_eq da _ o P hst hfp hP]
    cases hside : o.side
    · rw [if_pos rfl, if_pos rfl]
      have harg : (ps.sum / (ps.length : ℚ) - P) * o.quantity_mwh
          = ((ps.map fun p => p - P).sum) * (o.quantity_mwh / (ps.length : ℚ)) := by
        rw [sum_map_sub_const]
        have h1 : (ps.sum - (ps.length : ℚ) * P) * (o.quantity_mwh / (ps.length : ℚ))
            = ((ps.sum - (ps.length : ℚ) * P) / (ps.length : ℚ)) * o.quantity_mwh := by
          ring
        have h2 : (ps.sum - (ps.length : ℚ) * P) / (ps.length : ℚ)
            = ps.sum / (ps.length : ℚ) - P := by
          rw [sub_div, mul_div_cancel_left₀ _ hlen]
        rw [h1, h2]
      rw [harg]
    · rw [if_neg (by simp), if_neg (by simp)]
      have harg : (P - ps.sum / (ps.length : ℚ)) * o.quantity_mwh
          = ((ps.map fun p => P - p).sum) * (o.quantity_mwh / (ps.length : ℚ)) := by
        rw [sum_map_const_sub]
        have h1 : ((ps.length : ℚ) * P - ps.sum) * (o.quantity_mwh / (ps.length : ℚ))
            = (((ps.length : ℚ) * P - ps.sum) / (ps.length : ℚ)) * o.quantity_mwh := by
          ring
        have h2 : ((ps.length : ℚ) * P - ps.sum) / (ps.length : ℚ)
            = P - ps.sum / (ps.length : ℚ) := by
          rw [sub_div, mul_div_cancel_left₀ _ hlen]
        rw [h1, h2]
      rw [harg]
  have hmem : orderPnL da (rtAverageJs ps) o ∈ calculatePnL orders da ps :=
    List.mem_map_of_mem _ ho
  rwa [heq] at hmem

/-- C3 witness: the amended incomplete-hour formula at 8 buckets of 49.00. -/
theorem pnl_partial_hour_bucket_formula_witness :
    (⟨OrderStatus.filled, Side.buy, some 48, 12⟩ : DashOrder)
        ∈ [(⟨OrderStatus.filled, Side.buy, some 48, 12⟩ : DashOrder)]
    ∧ (⟨OrderStatus.filled, Side.buy, some 48, 12⟩ : DashOrder).status = OrderStatus.filled
    ∧ (⟨OrderStatus.filled, Side.buy, some 48, 12⟩ : DashOrder).filled_price = some 48
    ∧ (48:ℚ) ≠ 0
    ∧ 0 < (List.replicate 8 ((49:ℚ))).length
    ∧ (List.replicate 8 ((49:ℚ))).length < 12
    ∧ ((⟨OrderStatus.filled, Side.buy, some 48, 12⟩ : DashOrder),
        PnlValue.val (round2 (if (⟨OrderStatus.filled, Side.buy, some 48, 12⟩ : DashOrder).side = Side.buy
          then (((List.replicate 8 ((49:ℚ))).map fun p => p - 48).sum)
            * ((⟨OrderStatus.filled, Side.buy, some 48, 12⟩ : DashOrder).quantity_mwh
                / ((List.replicate 8 ((49:ℚ))).length : ℚ))
          else (((List.replicate 8 ((49:ℚ))).map fun p => (48:ℚ) - p).sum)
            * ((⟨OrderStatus.filled, Side.buy, some 48, 12⟩ : DashOrder).quantity_mwh
                / ((List.replicate 8 ((49:ℚ))).length : ℚ)))))
      ∈ calculatePnL [⟨OrderStatus.filled, Side.buy, some 48, 12⟩] 45
          (List.replicate 8 ((49:ℚ))) :=
  ⟨by simp, rfl, rfl, by norm_num, by simp, by simp,
   pnl_partial_hour_bucket_formula _ 45 _ _ 48 (by simp) rfl rfl (by norm_num)
     (by simp) (by simp)⟩

/-! ## C10: the unguarded average -/

/-- C10: the bucket-average division is unguarded — on an empty real-time
price list the denominator rtPrices.length is zero, JS evaluates 0/0 = NaN,
and every filled order receives the undefined pnl (not 0); on any non-empty
list every filled order receives a numeric pnl. -/
theorem pnl_empty_bucket_list_nan
    (orders : List DashOrder) (da : ℚ) (o : DashOrder)
    (ho : o ∈ orders) (hst : o.status = OrderStatus.filled) :
    (o, PnlValue.nanPnl) ∈ calculatePnL orders da []
    ∧ (∀ x : ℚ, PnlValue.nanPnl ≠ PnlValue.val x)
    ∧ (∀ ps : List ℚ, ps ≠ [] → ∃ x : ℚ, (o, PnlValue.val x) ∈ calculatePnL orders da ps) := by
  refine ⟨?_, fun x h => PnlValue.noConfusion h, fun ps hps => ?_⟩
  · refine List.mem_map.mpr ⟨o, ho, ?_⟩
    unfold orderPnL rtAverageJs
    simp [hst]
  · have havg := rtAverageJs_of_ne_nil ps hps
    have hex : ∃ x, orderPnL da (some (ps.sum / (ps.length : ℚ))) o = (o, PnlValue.val x) := by
      unfold orderPnL
      rw [if_neg (by simp [hst])]
      exact ⟨_, rfl⟩
    obtain ⟨x, hx⟩ := hex
    exact ⟨x, List.mem_map.mpr ⟨o, ho, by rw [havg, hx]⟩⟩

/-- C10 witness: a single filled order against an empty bucket list. -/
theorem pnl_empty_bucket_list_nan_witness :
    (⟨OrderStatus.filled, Side.buy, some 48, 1⟩ : DashOrder)
        ∈ [(⟨OrderStatus.filled, Side.buy, some 48, 1⟩ : DashOrder)]
    ∧ (⟨OrderStatus.filled, Side.buy, some 48, 1⟩ : DashOrder).status = OrderStatus.filled
    ∧ ((⟨OrderStatus.filled, Side.buy, some 48, 1⟩ : DashOrder), PnlValue.nanPnl)
        ∈ calculatePnL [⟨OrderStatus.filled, Side.buy, some 48, 1⟩] 0 []
    ∧ (∀ x : ℚ, PnlValue.nanPnl ≠ PnlValue.val x)
    ∧ (∀ ps : List ℚ, ps ≠ [] → ∃ x : ℚ,
        ((⟨OrderStatus.filled, Side.buy, some 48, 1⟩ : DashOrder), PnlValue.val x)
          ∈ calculatePnL [⟨OrderStatus.filled, Side.buy, some 48, 1⟩] 0 ps) := by
  have h := pnl_empty_bucket_list_nan [⟨OrderStatus.filled, Side.buy, some 48, 1⟩] 0
    ⟨OrderStatus.filled, Side.buy, some 48, 1⟩ (by simp) rfl
  exact ⟨by simp, rfl, h.1, h.2.1, h.2.2⟩

/-! ## C4: limit-order matching (spec-modelled) -/

/-- C4: a limit buy fills at the reference price iff reference <= limit, a
limit sell iff reference >= limit, otherwise the order is rejected with
reason LimitNotMet; in particular a DA sell with limit 55.00 against a
clearing price of 50.00 is rejected with LimitNotMet. -/
theorem limit_order_matching_spec (ref lp : ℚ) :
    (matchLimitOrder ref lp Side.buy
        = if ref ≤ lp then ⟨OrderStatus.filled, some ref, none⟩
          else ⟨OrderStatus.rejected, none, some MatchReason.LimitNotMet⟩)
    ∧ (matchLimitOrder ref lp Side.sell
        = if lp ≤ ref then ⟨OrderStatus.filled, some ref, none⟩
          else ⟨OrderStatus.rejected, none, some MatchReason.LimitNotMet⟩)
    ∧ ((matchLimitOrder ref lp Side.buy).status = OrderStatus.filled ↔ ref ≤ lp)
    ∧ ((matchLimitOrder ref lp Side.sell).status = OrderStatus.filled ↔ lp ≤ ref)
    ∧ matchLimitOrder 50 55 Side.sell
        = ⟨OrderStatus.rejected, none, some MatchReason.LimitNotMet⟩ := by
  have hbuy : matchLimitOrder ref lp Side.buy
      = if ref ≤ lp then ⟨OrderStatus.filled, some ref, none⟩
        else ⟨OrderStatus.rejected, none, some MatchReason.LimitNotMet⟩ := rfl
  have hsell : matchLimitOrder ref lp Side.sell
      = if lp ≤ ref then ⟨OrderStatus.filled, some ref, none⟩
        else ⟨OrderStatus.rejected, none, some MatchReason.LimitNotMet⟩ := rfl
  refine ⟨hbuy, hsell, ?_, ?_, ?_⟩
  · rw [hbuy]
    split_ifs with h
    · exact iff_of_true rfl h
    · exact iff_of_false (by simp) h
  · rw [hsell]
    split_ifs with h
    · exact iff_of_true rfl h
    · exact iff_of_false (by simp) h
  · norm_num [matchLimitOrder]

/-! ## C5: the day-ahead cutoff check -/

/-- C5 counterexample: at 2025-07-01T03:00Z (minute 29188980) with a runtime
whose local clock is UTC (offset 0), the code reports day-ahead ordering
permitted (local hour 3 < 11), while in America/New_York it is 23:00 EDT of
June 30, past the 11:00 cutoff. -/
theorem da_cutoff_timezone_counterexample :
    isDayAheadMarketOpen 29188980 0 = true ∧ ¬ daOpenPerClaim 29188980 := by
  constructor
  · decide
  · unfold daOpenPerClaim
    decide

/-- C5 (amended): both cited checks agree and report day-ahead ordering
permitted exactly when the hour of day of the current instant on the
runtime local clock (UTC instant plus environment offset) is below 11 — a
plain local-clock comparison, not the DST-aware America/New_York cutoff,
coinciding with it only when the runtime zone offset equals the New York
offset; real-time ordering is always permitted. -/
theorem da_cutoff_local_clock (nowUtcMin envOffsetMin : ℤ) :
    (isDayAheadMarketOpen nowUtcMin envOffsetMin = true
      ↔ hourOfDay (nowUtcMin + envOffsetMin) < 11)
    ∧ isDATradingOpen nowUtcMin envOffsetMin = isDayAheadMarketOpen nowUtcMin envOffsetMin
    ∧ isRealTimeMarketOpen = true := by
  refine ⟨by simp [isDayAheadMarketOpen], ?_, rfl⟩
  simp only [isDATradingOpen, isDayAheadMarketOpen, hourOfDay]
  rw [decide_eq_decide]
  omega

/-! ## C6: per-slot order caps -/

/-- C6: validateOrderLimits accepts exactly when the count of existing
orders of the same market and slot is below the cap (10 per DA hour, 50 per
RT 5-minute slot) and reports remaining capacity cap minus count; the
handleSubmitOrder gate blocks exactly in the complementary case, with the
same caps. -/
theorem slot_cap_check_correct (timeSlot : ℤ) (existing : List ApiOrder) :
    ((validateOrderLimits Market.dayAhead timeSlot existing).isValid = true
      ↔ ((existing.countP fun o =>
            decide (o.market = Market.dayAhead ∧ o.hour_start = timeSlot)) : ℤ) < 10)
    ∧ (validateOrderLimits Market.dayAhead timeSlot existing).maxCount = 10
    ∧ (validateOrderLimits Market.dayAhead timeSlot existing).remaining
        = 10 - ((existing.countP fun o =>
            decide (o.market = Market.dayAhead ∧ o.hour_start = timeSlot)) : ℤ)
    ∧ ((validateOrderLimits Market.realTime timeSlot existing).isValid = true
      ↔ ((existing.countP fun o =>
            decide (o.market = Market.realTime ∧ o.time_slot = some timeSlot)) : ℤ) < 50)
    ∧ (validateOrderLimits Market.realTime timeSlot existing).maxCount = 50
    ∧ (validateOrderLimits Market.realTime timeSlot existing).remaining
        = 50 - ((existing.countP fun o =>
            decide (o.market = Market.realTime ∧ o.time_slot = some timeSlot)) : ℤ)
    ∧ (∀ market, maxOrdersPerSlot market
        = (validateOrderLimits market timeSlot existing).maxCount)
    ∧ (∀ c m : ℤ, slotCapBlocks c m = false ↔ c < m) := by
  refine ⟨?_, ?_, ?_, ?_, ?_, ?_, ?_, ?_⟩
  · simp [validateOrderLimits, List.countP_eq_length_filter]
  · simp [validateOrderLimits]
  · simp [validateOrderLimits, List.countP_eq_length_filter]
  · simp [validateOrderLimits, List.countP_eq_length_filter]
  · simp [validateOrderLimits]
  · simp [validateOrderLimits, List.countP_eq_length_filter]
  · intro market
    cases market <;> simp [validateOrderLimits, maxOrdersPerSlot]
  · intro c m
    simp [slotCapBlocks]

/-! ## C7: cancellation -/

/-- C7 counterexample: the order store holds one filled order with id 1;
handleDeleteOrder 1 removes it, leaving the empty store — the filled order
is not left unchanged and no InvalidStateTransition error exists in this
code path. -/
theorem cancel_filled_order_counterexample :
    handleDeleteOrder 1 [⟨1, OrderStatus.filled⟩] = []
    ∧ ([] : List MgmtOrder) ≠ [⟨1, OrderStatus.filled⟩] := by
  constructor
  · decide
  · simp

/-- C7 (amended): handleDeleteOrder removes the order with the given id
from the order store unconditionally — an order survives exactly when its
id differs from the requested one, with no condition on its status
(pending, filled or rejected alike), no transition to cancelled, and no
InvalidStateTransition error. -/
theorem delete_order_ignores_status (orderId : ℤ) (orders : List MgmtOrder)
    (o : MgmtOrder) :
    o ∈ handleDeleteOrder orderId orders ↔ o ∈ orders ∧ o.id ≠ orderId := by
  simp [handleDeleteOrder]

/-! ## C8: the Eastern round trip -/

/-- C8 counterexample: the UTC minutes 29367690 (2025-11-02T05:30Z, still
EDT) and 29367750 (2025-11-02T06:30Z, already EST) both format in
America/New_York as the pair (2025-11-02, 01:30) — the DST fall-back
repeats the 01:00 hour — so utcToEdt is not injective and edtToUtc cannot
return both; with either possible initial offset guess the round trip fails
at one of the two instants. -/
theorem edt_roundtrip_counterexample :
    utcToEdt 29367690 = utcToEdt 29367750
    ∧ (29367690 : ℤ) ≠ 29367750
    ∧ edtToUtc (utcToEdt 29367690).1 (utcToEdt 29367690).2 (-300) ≠ 29367690
    ∧ edtToUtc (utcToEdt 29367750).1 (utcToEdt 29367750).2 (-240) ≠ 29367750 := by
  refine ⟨by decide, by decide, by decide, by decide⟩

/-- C8 (amended): for every whole-minute UTC instant whose Eastern civil
representation is unambiguous — i.e. excluding the instants of the repeated
01:00 hour at the DST fall-back, where the other possible offset also
realizes the same wall time — converting to Eastern date and time with
utcToEdt and back with edtToUtc returns the instant, for either initial
offset guess the parser can start from. -/
theorem edt_roundtrip_unambiguous (u o0 : ℤ)
    (ho0 : o0 = -240 ∨ o0 = -300)
    (hunamb : nyOffsetMin (u + nyOffsetMin u - (-540 - nyOffsetMin u))
      ≠ -540 - nyOffsetMin u) :
    edtToUtc (utcToEdt u).1 (utcToEdt u).2 o0 = u := by
  have hmem := nyOffset_mem u
  have hdm : ∀ x : ℤ, x / 1440 * 1440 + x % 1440 = x := fun x => by omega
  have hlocal : (u + nyOffsetMin u) / 1440 * 1440 + (u + nyOffsetMin u) % 1440
      = u + nyOffsetMin u := hdm (u + nyOffsetMin u)
  simp only [edtToUtc, utcToEdt]
  rw [hlocal]
  by_cases heq : o0 = nyOffsetMin u
  · have h1 : u + nyOffsetMin u - o0 = u := by rw [heq]; ring
    simp only [tzFixOffset]
    rw [h1, if_pos heq.symm]
  · have ho0eq : o0 = -540 - nyOffsetMin u := by
      rcases hmem with h | h <;> rcases ho0 with h0 | h0 <;> omega
    have h2 : nyOffsetMin (u + nyOffsetMin u - o0) ≠ o0 := by
      rw [show u + nyOffsetMin u - o0 = u + nyOffsetMin u - (-540 - nyOffsetMin u) by
        rw [ho0eq], ho0eq]
      exact hunamb
    have hmem2 := nyOffset_mem (u + nyOffsetMin u - o0)
    have h3 : nyOffsetMin (u + nyOffsetMin u - o0) = nyOffsetMin u := by
      rcases hmem with h | h <;> rcases hmem2 with h4 | h4 <;> omega
    simp only [tzFixOffset]
    rw [if_neg h2]
    have hg2 : u + nyOffsetMin u - o0 - (nyOffsetMin (u + nyOffsetMin u - o0) - o0)
        = u := by
      rw [h3]
      ring
    rw [hg2, h3, if_pos rfl]

/-- C8 witness: a July instant (unambiguous, EDT) round trips with the EST
initial guess. -/
theorem edt_roundtrip_unambiguous_witness :
    ((-300 : ℤ) = -240 ∨ (-300 : ℤ) = -300)
    ∧ nyOffsetMin (29188980 + nyOffsetMin 29188980 - (-540 - nyOffsetMin 29188980))
        ≠ -540 - nyOffsetMin 29188980
    ∧ edtToUtc (utcToEdt 29188980).1 (utcToEdt 29188980).2 (-300) = 29188980 :=
  ⟨Or.inr rfl, by decide,
   edt_roundtrip_unambiguous 29188980 (-300) (Or.inr rfl) (by decide)⟩

/-! ## C9: RT slot start as hour_start -/

/-- C9: formatRTTimeSlot returns hourStartUtc equal to timeSlotUtc — both
the UTC conversion of the slot start instant itself — and intervalEndUtc
exactly 5 minutes later; handleCreateOrderRT therefore submits the slot
start as the order hour_start. -/
theorem rt_slot_hour_start_eq_slot (d t o0 : ℤ) :
    (formatRTTimeSlot d t o0).1 = edtToUtc d t o0
    ∧ (formatRTTimeSlot d t o0).2.1 = (formatRTTimeSlot d t o0).1
    ∧ (formatRTTimeSlot d t o0).2.2 = (formatRTTimeSlot d t o0).1 + 5
    ∧ (handleCreateOrderRT d t o0).hour_start = edtToUtc d t o0
    ∧ (handleCreateOrderRT d t o0).time_slot = (handleCreateOrderRT d t o0).hour_start :=
  ⟨rfl, rfl, rfl, rfl, rfl⟩
